import Mathlib

/-!
Shallow embedding of `src/packages/server/Server.js` of the node-remlog
repository, together with spec-modelled definitions for the collaborating
packages (`@namics/remlog-scheme`, `@namics/remlog-transports`,
`package.json`) whose code is not under `src/`.

JavaScript values flowing through the server are modelled by `JsVal`;
objects are association lists of fields.  Machinery that the server relies
on (Express middleware/routing, `JSON.parse`, `decodeURIComponent`) is
modelled at the boundary, faithful to its documented behaviour at the call
sites that occur in the source.
-/

/-- A JavaScript/JSON value as it flows through the server: JSON primitives,
arrays and objects (association lists of fields).  JSON numbers are
restricted to integers, which covers every numeric value the server
constructs (`200`, `500`). -/
inductive JsVal where
  | null
  | bool (b : Bool)
  | num (n : Int)
  | str (s : String)
  | arr (xs : List JsVal)
  | obj (fields : List (String × JsVal))

/-- A JavaScript object, as the server's payloads and records are: an
association list from field names to values. -/
abbrev JsObj := List (String × JsVal)

/-- JavaScript truthiness of a value (`null`, `false`, `0` and `""` are
falsy; arrays and objects are truthy). -/
def jsTruthy : JsVal → Bool
  | JsVal.null => false
  | JsVal.bool b => b
  | JsVal.num n => n != 0
  | JsVal.str s => s != ""
  | JsVal.arr _ => true
  | JsVal.obj _ => true

/-- JavaScript strict equality `===` restricted to the comparisons the
server performs: primitives compare structurally; two object or array
references obtained independently are distinct, so the conservative result
for composite values is `false`. -/
def jsStrictEq : JsVal → JsVal → Bool
  | JsVal.null, JsVal.null => true
  | JsVal.bool a, JsVal.bool b => a == b
  | JsVal.num a, JsVal.num b => a == b
  | JsVal.str a, JsVal.str b => a == b
  | _, _ => false

/-- Property read `o.k`: the value of the first field named `k`, `none`
standing for JavaScript `undefined`. -/
def getField? (o : JsObj) (k : String) : Option JsVal :=
  (o.find? (fun p => p.1 == k)).map (fun p => p.2)

/-- Property write `o.k = v`: replaces the field named `k` in place, or
appends it when absent. -/
def setField : JsObj → String → JsVal → JsObj
  | [], k, v => [(k, v)]
  | (k2, v2) :: rest, k, v =>
      if k2 == k then (k, v) :: rest else (k2, v2) :: setField rest k v

/-- The pieces of an Express request the server reads: `req.ip`, the
`Origin` header (consulted by the CORS middleware), the
`x-forwarded-for` header, `req.connection.remoteAddress`, the parsed JSON
body (`req.body` after `bodyParser.json()`), and the parsed query object
(`req.query`).  A `none` header models JavaScript `undefined`. -/
structure Request where
  ip : String
  origin : Option String
  xForwardedFor : Option String
  remoteAddress : String
  body : JsObj
  query : List (String × String)

/-- The error values that flow through the server: schema-validation
errors thrown by `Scheme`, `fs.readFile` errors, the not-found error of
`GET /logs/:id.json`, `JSON.parse` failures, `decodeURIComponent`
failures, CORS rejections, and the `ReferenceError` for an undefined
identifier. -/
inductive JsError where
  | validation (msg : String)
  | fsRead (msg : String)
  | notFound (msg : String)
  | badJson (input : String)
  | badUri (input : String)
  | corsRejected (msg : String)
  | refError (name : String)
  deriving Repr, DecidableEq

/-- `err.message` of the modelled error values, as read by the shared
error handler (line 204 of `Server.js`). -/
def errMessage : JsError → String
  | JsError.validation m => m
  | JsError.fsRead m => m
  | JsError.notFound m => m
  | JsError.badJson s => "Unexpected token in JSON input " ++ s
  | JsError.badUri s => "URI malformed " ++ s
  | JsError.corsRejected m => m
  | JsError.refError n => n ++ " is not defined"

/-- Modelled from the spec: `new Scheme(payload).get()` of the
`@namics/remlog-scheme` package, whose code is not under `src/`.  Per
spec section 3 the `id` must be non-null after normalization, with
failure otherwise, and the remaining fields are opaque metadata passed
through; per section 4.1 a violation is thrown and must be caught by the
caller.  So: a payload whose `id` is absent or null fails validation,
any other payload is returned unchanged. -/
def schemeGet (p : JsObj) : Except JsError JsObj :=
  match getField? p "id" with
  | none => Except.error (JsError.validation "Invalid payload: id must be non-null")
  | some JsVal.null => Except.error (JsError.validation "Invalid payload: id must be non-null")
  | some _ => Except.ok p

/-- Line 51 of `Server.js`:
`req.headers['x-forwarded-for'] || req.connection.remoteAddress`.
JavaScript `||` takes the right operand when the left is falsy, and the
only falsy string is the empty string; an absent header is `undefined`,
also falsy. -/
def deriveHost (req : Request) : String :=
  match req.xForwardedFor with
  | some s => if jsTruthy (JsVal.str s) then s else req.remoteAddress
  | none => req.remoteAddress

/-- Line 51: `payload.host = req.headers['x-forwarded-for'] || req.connection.remoteAddress`. -/
def withServerHost (req : Request) (payload : JsObj) : JsObj :=
  setField payload "host" (JsVal.str (deriveHost req))

/-- Line 52: `payload.timestamp = payload.timestamp || new Date().toISOString()`,
with `nowA` the ISO string of the current time. -/
def withTimestamp (nowA : String) (p : JsObj) : JsObj :=
  match getField? p "timestamp" with
  | some v => if jsTruthy v then setField p "timestamp" v else setField p "timestamp" (JsVal.str nowA)
  | none => setField p "timestamp" (JsVal.str nowA)

/-- `Server.trace` (lines 49-68 of `Server.js`).  Returns the value the
continuation `next` is invoked with, paired with the list of records the
transport is asked to persist.  On success `next` receives the normalized
record and the record is handed to `transport.trace`, whose completion
callback persists it; on a thrown validation error the catch block
invokes `next` with the structured failure `{id: null, error: e}` and
nothing is persisted.  The `error` field is modelled by the thrown
error's message string. -/
def serverTrace (req : Request) (nowA : String) (payload : JsObj) : JsObj × List JsObj :=
  match schemeGet (withTimestamp nowA (withServerHost req payload)) with
  | Except.ok record => (record, [record])
  | Except.error e => ([("id", JsVal.null), ("error", JsVal.str (errMessage e))], [])

/-- The backing file `GENERIC_TRANSPORT_LOGFILE` as the read endpoints
observe it: either unreadable (absent, with the `fs.readFile` error
message), or readable with a parsed list of records. -/
inductive StoreFile where
  | unreadable (msg : String)
  | content (logs : List JsObj)

/-- The record list a write starts from: an unreadable (in particular, a
not-yet-created) file contributes no records. -/
def listOf : StoreFile → List JsObj
  | StoreFile.unreadable _ => []
  | StoreFile.content logs => logs

/-- Key comparison used by the store: JavaScript `===` on the `id`
properties of two records, where both being `undefined` compares equal. -/
def keyEq : Option JsVal → Option JsVal → Bool
  | some x, some y => jsStrictEq x y
  | none, none => true
  | _, _ => false

/-- Modelled from the spec: `transport.saveTraceToLock` of the
`@namics/remlog-transports` package, whose code is not under `src/`.  Per
spec sections 3 and 4.3 the store is an insertion-ordered mapping from
`id` to the most recently written record: `save(record)` inserts or
overwrites the entry for `record.id`, keys stay unique, later writes for
the same id supersede earlier ones, and the file is created lazily on
first write. -/
def saveToLock (logs : List JsObj) (record : JsObj) : List JsObj :=
  if logs.any (fun r => keyEq (getField? r "id") (getField? record "id"))
  then logs.map (fun r => if keyEq (getField? r "id") (getField? record "id") then record else r)
  else logs ++ [record]

/-- An HTTP response as observed by the client: status code, the headers
the server explicitly set (`res.setHeader` plus the content type implied
by `res.json` / `res.render` / `res.send` / `res.sendFile`), and the
body. -/
structure HttpResponse where
  status : Nat
  headersSet : List (String × String)
  body : JsVal

/-- `res.json(v)`: status defaults to 200, JSON content type. -/
def jsonResponse (v : JsVal) : HttpResponse :=
  { status := 200, headersSet := [("Content-Type", "application/json")], body := v }

/-- `res.render('index', {pkg, logs})` (line 137): view rendering is an
external collaborator, modelled as an HTML response carrying the `logs`
value handed to the template. -/
def htmlResponse (logs : JsVal) : HttpResponse :=
  { status := 200, headersSet := [("Content-Type", "text/html")], body := logs }

/-- The shared error handler middleware (lines 203-213):
`res.status(500).json({timestamp, error: err.message || err || 'Unknown error', httpStatus: 500})`. -/
def errorEnvelope (now msg : String) : HttpResponse :=
  { status := 500,
    headersSet := [("Content-Type", "application/json")],
    body := JsVal.obj [("timestamp", JsVal.str now), ("error", JsVal.str msg),
                       ("httpStatus", JsVal.num 500)] }

/-- What a route handler does with the response: either it responds
itself, or it calls Express's `next(err)` and the shared error handler
responds. -/
inductive RouteResult where
  | ok (resp : HttpResponse)
  | err (e : JsError)

/-- Routing a handler outcome through the tail of the Express stack: an
error forwarded with `next(err)` reaches the shared error handler
middleware and becomes the uniform 500 envelope. -/
def runRoute (now : String) : RouteResult → HttpResponse
  | RouteResult.ok r => r
  | RouteResult.err e => errorEnvelope now (errMessage e)

/-- The JSON array of records held by the backing file, as a value. -/
def logsArr (logs : List JsObj) : JsVal :=
  JsVal.arr (logs.map JsVal.obj)

/-- `GET /` handler (lines 133-142): `let logs = err ? [] : JSON.parse(data)`
and render; a read error degrades to an empty listing. -/
def indexRoute (store : StoreFile) : RouteResult :=
  match store with
  | StoreFile.unreadable _ => RouteResult.ok (htmlResponse (logsArr []))
  | StoreFile.content logs => RouteResult.ok (htmlResponse (logsArr logs))

/-- `GET /info` handler (lines 144-146): plain `name v<version>` text. -/
def infoResponse (pkgName pkgVersion : String) : HttpResponse :=
  { status := 200, headersSet := [("Content-Type", "text/html")],
    body := JsVal.str (pkgName ++ " v" ++ pkgVersion) }

/-- `GET /logs.json` handler (lines 148-156): a read error is forwarded
with `next(err)`; otherwise the parsed array is sent as JSON. -/
def logsJsonRoute (store : StoreFile) : RouteResult :=
  match store with
  | StoreFile.unreadable m => RouteResult.err (JsError.fsRead m)
  | StoreFile.content logs => RouteResult.ok (jsonResponse (logsArr logs))

/-- One record's `logfile.id === req.params.id` test from the
`GET /logs/:id.json` handler (line 168): strict equality of the record's
`id` property with the string route parameter. -/
def idMatch (id : String) (r : JsObj) : Bool :=
  match getField? r "id" with
  | some v => jsStrictEq v (JsVal.str id)
  | none => false

/-- The `logs.forEach` loop of lines 167-171: `selected` ends up holding
the last record whose `id` strictly equals the route parameter. -/
def selectLast (logs : List JsObj) (id : String) : Option JsObj :=
  logs.foldl (fun acc r => if idMatch id r then some r else acc) none

/-- `GET /logs/:id.json` handler (lines 158-179): a read error is
forwarded with `next(err)`; an absent id is forwarded as
`new Error('Logfile with ID <id> was not found')`; otherwise the selected
record is sent as JSON. -/
def logByIdRoute (store : StoreFile) (id : String) : RouteResult :=
  match store with
  | StoreFile.unreadable m => RouteResult.err (JsError.fsRead m)
  | StoreFile.content logs =>
      match selectLast logs id with
      | none => RouteResult.err (JsError.notFound ("Logfile with ID " ++ id ++ " was not found"))
      | some r => RouteResult.ok (jsonResponse (JsVal.obj r))

/-- Modelled from the spec: the fate of the decoupled store write started
by `transport.trace`'s completion callback, by the time the store is next
observed.  Spec section 4.3: the write path is decoupled from the
response path, so by then the write may have landed, failed, or still be
in flight. -/
inductive PersistOutcome where
  | landed
  | failed
  | inFlight

/-- Applies one queued `saveTraceToLock` write to the backing file
according to its outcome; only a landed write changes the file. -/
def applyWrite (o : PersistOutcome) (store : StoreFile) (record : JsObj) : StoreFile :=
  match o with
  | PersistOutcome.landed => StoreFile.content (saveToLock (listOf store) record)
  | PersistOutcome.failed => store
  | PersistOutcome.inFlight => store

/-- `res.status(200).json({timestamp, error: null, id: payload.id, httpStatus: 200})`
(lines 194-199), applied to the value `Server.trace` passed to the
continuation. -/
def traceAck (nowB : String) (contArg : JsObj) : HttpResponse :=
  { status := 200,
    headersSet := [("Content-Type", "application/json")],
    body := JsVal.obj [("timestamp", JsVal.str nowB), ("error", JsVal.null),
                       ("id", (getField? contArg "id").getD JsVal.null),
                       ("httpStatus", JsVal.num 200)] }

/-- `POST /trace` handler (lines 190-201), parametrized by the outcome of
the decoupled store write: `Server.trace` runs on `req.body`, the inline
continuation always answers 200 with `error: null`, and any queued write
is applied to the backing file per its outcome. -/
def postTraceRouteWith (o : PersistOutcome) (req : Request) (nowA nowB : String)
    (store : StoreFile) : RouteResult × StoreFile :=
  (RouteResult.ok (traceAck nowB (serverTrace req nowA req.body).1),
   (serverTrace req nowA req.body).2.foldl (applyWrite o) store)

/-- `POST /trace` handler under the sequential reading used for the
read-back claims: by the time the store is next observed, the decoupled
write has landed. -/
def postTraceRoute (req : Request) (nowA nowB : String) (store : StoreFile) :
    RouteResult × StoreFile :=
  postTraceRouteWith PersistOutcome.landed req nowA nowB store

/-- Skips JSON whitespace. -/
def skipWs : List Char → List Char
  | c :: rest => if c = ' ' ∨ c = '\t' ∨ c = '\n' ∨ c = '\r' then skipWs rest else c :: rest
  | [] => []

/-- Consumes a run of decimal digits, accumulating their value. -/
def digitsAux : List Char → Nat → Nat × List Char
  | c :: rest, acc => if c.isDigit then digitsAux rest (acc * 10 + (c.toNat - 48)) else (acc, c :: rest)
  | [], acc => (acc, [])

/-- Value of a hexadecimal digit. -/
def hexDigit? (c : Char) : Option Nat :=
  if c.isDigit then some (c.toNat - 48)
  else if 'a' ≤ c ∧ c ≤ 'f' then some (c.toNat - 87)
  else if 'A' ≤ c ∧ c ≤ 'F' then some (c.toNat - 55)
  else none

/-- The character a JSON string escape `\c` denotes, for the single-character
escapes. -/
def escapeChar? (c : Char) : Option Char :=
  if c = '"' then some '"'
  else if c = '\\' then some '\\'
  else if c = '/' then some '/'
  else if c = 'b' then some (Char.ofNat 8)
  else if c = 'f' then some (Char.ofNat 12)
  else if c = 'n' then some '\n'
  else if c = 'r' then some '\r'
  else if c = 't' then some '\t'
  else none

/-- Parses the body of a JSON string after the opening quote, escapes
included, returning the string and the rest of the input. -/
def parseStrBody : Nat → List Char → Option (List Char × List Char)
  | 0, _ => none
  | _, [] => none
  | fuel + 1, c :: rest =>
    if c = '"' then some ([], rest)
    else if c = '\\' then
      match rest with
      | [] => none
      | e :: rest2 =>
        if e = 'u' then
          match rest2 with
          | a :: b :: c2 :: d :: rest3 =>
            match hexDigit? a, hexDigit? b, hexDigit? c2, hexDigit? d with
            | some ha, some hb, some hc, some hd =>
              match parseStrBody fuel rest3 with
              | some (s, r) => some (Char.ofNat (((ha * 16 + hb) * 16 + hc) * 16 + hd) :: s, r)
              | none => none
            | _, _, _, _ => none
          | _ => none
        else
          match escapeChar? e with
          | some ch =>
            match parseStrBody fuel rest2 with
            | some (s, r) => some (ch :: s, r)
            | none => none
          | none => none
    else
      match parseStrBody fuel rest with
      | some (s, r) => some (c :: s, r)
      | none => none

mutual

/-- Model of the `JSON.parse` grammar: one JSON value at the head of the
input (numbers restricted to integers, which covers every input this
development evaluates the parser on). -/
def parseVal : Nat → List Char → Option (JsVal × List Char)
  | 0, _ => none
  | fuel + 1, cs =>
    match skipWs cs with
    | 'n' :: 'u' :: 'l' :: 'l' :: rest => some (JsVal.null, rest)
    | 't' :: 'r' :: 'u' :: 'e' :: rest => some (JsVal.bool true, rest)
    | 'f' :: 'a' :: 'l' :: 's' :: 'e' :: rest => some (JsVal.bool false, rest)
    | '"' :: rest =>
      match parseStrBody (fuel + 1) rest with
      | some (s, r) => some (JsVal.str (String.mk s), r)
      | none => none
    | '[' :: rest => parseArrItems fuel rest
    | '{' :: rest => parseObjItems fuel rest
    | '-' :: c :: rest =>
      if c.isDigit then
        match digitsAux rest (c.toNat - 48) with
        | (n, r) => some (JsVal.num (-(Int.ofNat n)), r)
      else none
    | c :: rest =>
      if c.isDigit then
        match digitsAux rest (c.toNat - 48) with
        | (n, r) => some (JsVal.num (Int.ofNat n), r)
      else none
    | [] => none

/-- Parses the items of a JSON array after the opening bracket. -/
def parseArrItems : Nat → List Char → Option (JsVal × List Char)
  | 0, _ => none
  | fuel + 1, cs =>
    match skipWs cs with
    | ']' :: rest => some (JsVal.arr [], rest)
    | _ =>
      match parseVal fuel cs with
      | none => none
      | some (v, r1) =>
        match parseArrTail fuel r1 with
        | some (vs, r2) => some (JsVal.arr (v :: vs), r2)
        | none => none

/-- Parses `, item ... ]` after one array item. -/
def parseArrTail : Nat → List Char → Option (List JsVal × List Char)
  | 0, _ => none
  | fuel + 1, cs =>
    match skipWs cs with
    | ']' :: rest => some ([], rest)
    | ',' :: rest =>
      match parseVal fuel rest with
      | none => none
      | some (v, r1) =>
        match parseArrTail fuel r1 with
        | some (vs, r2) => some (v :: vs, r2)
        | none => none
    | _ => none

/-- Parses the members of a JSON object after the opening brace. -/
def parseObjItems : Nat → List Char → Option (JsVal × List Char)
  | 0, _ => none
  | fuel + 1, cs =>
    match skipWs cs with
    | c :: rest =>
      if c = '\x7d' then some (JsVal.obj [], rest)
      else
        match parsePair fuel (c :: rest) with
        | none => none
        | some (kv, r1) =>
          match parseObjTail fuel r1 with
          | some (kvs, r2) => some (JsVal.obj (kv :: kvs), r2)
          | none => none
    | [] => none

/-- Parses one `"key": value` member. -/
def parsePair : Nat → List Char → Option ((String × JsVal) × List Char)
  | 0, _ => none
  | fuel + 1, cs =>
    match skipWs cs with
    | '"' :: rest =>
      match parseStrBody (fuel + 1) rest with
      | none => none
      | some (k, r1) =>
        match skipWs r1 with
        | ':' :: r2 =>
          match parseVal fuel r2 with
          | some (v, r3) => some ((String.mk k, v), r3)
          | none => none
        | _ => none
    | _ => none

/-- Parses `, member ...` up to the closing brace after one object member. -/
def parseObjTail : Nat → List Char → Option (List (String × JsVal) × List Char)
  | 0, _ => none
  | fuel + 1, cs =>
    match skipWs cs with
    | c :: rest =>
      if c = '\x7d' then some ([], rest)
      else if c = ',' then
        match parsePair fuel rest with
        | none => none
        | some (kv, r1) =>
          match parseObjTail fuel r1 with
          | some (kvs, r2) => some (kv :: kvs, r2)
          | none => none
      else none
    | [] => none

end

/-- Model of `JSON.parse`: parses one JSON value and requires the rest of
the input to be whitespace; `none` models the thrown `SyntaxError`. -/
def jsonParse (s : String) : Option JsVal :=
  match parseVal (s.length + 1) s.data with
  | some (v, rest) => if skipWs rest = [] then some v else none
  | none => none

/-- Model of `decodeURIComponent` on the character list: percent escapes
are hex-decoded, a malformed escape is a thrown `URIError` (`none`). -/
def pctDecode : List Char → Option (List Char)
  | [] => some []
  | '%' :: rest =>
    match rest with
    | a :: b :: rest2 =>
      match hexDigit? a, hexDigit? b with
      | some x, some y =>
        match pctDecode rest2 with
        | some t => some (Char.ofNat (16 * x + y) :: t)
        | none => none
      | _, _ => none
    | _ => none
  | c :: rest =>
    match pctDecode rest with
    | some t => some (c :: t)
    | none => none

/-- Model of `decodeURIComponent` on strings. -/
def decodeURIComponent (s : String) : Option String :=
  (pctDecode s.data).map String.mk

/-- JavaScript string coercion of the parsed Express query object, as
`decodeURIComponent(req.query)` performs it on line 182: `req.query` is a
plain object in Express, and `Object.prototype.toString` renders any
plain object as this fixed string, whatever the query was. -/
def queryObjectToString (q : List (String × String)) : String :=
  match q with
  | _ => "[object Object]"

/-- Field list of a parsed JSON value used as a payload: an object
contributes its fields; for a non-object primitive, property writes in
non-strict JavaScript are no-ops, so it contributes none. -/
def jsFields : JsVal → JsObj
  | JsVal.obj fields => fields
  | _ => []

/-- `res.status(200).sendFile(.../src/tracer.jpg)` with the jpeg content
type set on lines 185-186, modelled as a response carrying the name of
the file served. -/
def pixelResponse : HttpResponse :=
  { status := 200, headersSet := [("Content-Type", "image/jpeg")],
    body := JsVal.str "tracer.jpg" }

/-- `GET /tracer.jpg` handler (lines 181-188):
`JSON.parse(decodeURIComponent(req.query))`, then `Server.trace` with a
continuation that ignores its argument and sends the pixel; an exception
thrown in the handler body is caught by Express and forwarded to the
shared error handler. -/
def tracerRoute (req : Request) (nowA : String) (store : StoreFile) :
    RouteResult × StoreFile :=
  match decodeURIComponent (queryObjectToString req.query) with
  | none => (RouteResult.err (JsError.badUri (queryObjectToString req.query)), store)
  | some s =>
    match jsonParse s with
    | none => (RouteResult.err (JsError.badJson s), store)
    | some v =>
      let tr := serverTrace req nowA (jsFields v)
      (RouteResult.ok pixelResponse, tr.2.foldl (applyWrite PersistOutcome.landed) store)

/-- The server configuration object (lines 24-29): listening port,
transport identifier and CORS allow-list.  The TLS fields only matter to
`start()` and are omitted. -/
structure Config where
  port : Nat
  transport : Option String
  cors : List String

/-- Modelled from the spec: `ConsoleTransport.id` of the
`@namics/remlog-transports` package, whose code is not under `src/`; the
default sink identifier, per spec section 6 the console sink. -/
def consoleTransportId : String := "console"

/-- `defaultConfig` (lines 24-29): port 8189, console transport, CORS
open to all hosts. -/
def defaultConfig : Config :=
  { port := 8189, transport := some consoleTransportId, cors := ["*"] }

/-- The CORS middleware configured on lines 73-92, applied to a request's
`Origin` header.  With the allow-list equal to `['*']` the unrestricted
`cors()` middleware passes every request through; otherwise the origin
callback of lines 83-89 accepts exactly the origins on the list
(`indexOf` of an absent — `undefined` — origin is `-1`) and passes
`new Error('Origin <origin> not allowed by CORS policy')` to its callback
for everything else, which the cors middleware forwards to `next`. -/
def corsCheck (cfg : Config) (origin : Option String) : Except JsError Unit :=
  if cfg.cors.length = 1 ∧ cfg.cors.head? = some "*" then Except.ok ()
  else
    match origin with
    | some o =>
        if o ∈ cfg.cors then Except.ok ()
        else Except.error (JsError.corsRejected ("Origin " ++ o ++ " not allowed by CORS policy"))
    | none => Except.error (JsError.corsRejected "Origin undefined not allowed by CORS policy")

/-- The routes registered by `attachRouter` (lines 130-201). -/
inductive Route where
  | index
  | info
  | logsJson
  | logById (id : String)
  | tracerJpg
  | postTrace

/-- Dispatch of one request to its route handler, with the store it may
update. -/
def dispatch (pkgName pkgVersion : String) (route : Route) (req : Request)
    (nowA nowB : String) (store : StoreFile) : RouteResult × StoreFile :=
  match route with
  | Route.index => (indexRoute store, store)
  | Route.info => (RouteResult.ok (infoResponse pkgName pkgVersion), store)
  | Route.logsJson => (logsJsonRoute store, store)
  | Route.logById id => (logByIdRoute store id, store)
  | Route.tracerJpg => tracerRoute req nowA store
  | Route.postTrace => postTraceRoute req nowA nowB store

/-- The header middleware of lines 122-127:
`res.setHeader('X-RemLog-Client', req.ip)` and
`res.setHeader('X-RemLog-Server-Version', pkg.version)`. -/
def remlogHeaders (req : Request) (pkgVersion : String) : List (String × String) :=
  [("X-RemLog-Client", req.ip), ("X-RemLog-Server-Version", pkgVersion)]

/-- Headers set earlier on the response prepended to those of the
response the handler produced. -/
def withHeaders (hs : List (String × String)) (r : HttpResponse) : HttpResponse :=
  { r with headersSet := hs ++ r.headersSet }

/-- One request through the middleware stack in registration order
(`attachMiddleware` then `attachRouter`, lines 70-214): the CORS check
runs before the header middleware, so an error it forwards skips the
remaining regular middleware — the X-RemLog headers included — and is
answered by the shared error handler; otherwise the header middleware
sets both X-RemLog headers and the route handler (or the shared error
handler, for an error it forwards) produces the response on top of
them. -/
def handleRequest (cfg : Config) (pkgName pkgVersion : String) (route : Route)
    (req : Request) (nowA nowB : String) (store : StoreFile) :
    HttpResponse × StoreFile :=
  match corsCheck cfg req.origin with
  | Except.error e => (runRoute nowB (RouteResult.err e), store)
  | Except.ok _ =>
    let d := dispatch pkgName pkgVersion route req nowA nowB store
    (withHeaders (remlogHeaders req pkgVersion) (runRoute nowB d.1), d.2)

/-- The identifiers bound in the module scope of
`src/packages/server/Server.js` (the `require`d names of lines 1-20 and
the module-level declarations of lines 22-33), against which a free
identifier in the module body is resolved. -/
def serverModuleScope : List String :=
  ["require", "module", "exports", "fs", "path", "http", "https", "cors",
   "express", "compression", "bodyParser", "helmet", "Logger", "Scheme",
   "ConsoleTransport", "getTransport", "GENERIC_TRANSPORT_LOGFILE", "pkg",
   "CORS_ALL_HOSTS_ENABLED", "defaultConfig", "logger", "Server"]

/-- The state a completed `Server` constructor would leave behind:
the chosen transport identifier, resolved to an instance. -/
structure ServerInit where
  transportId : String
  transportResolved : Bool

/-- The `Server` constructor (lines 34-43).  After storing the config and
picking `config.transport || defaultConfig.transport`, line 39 evaluates
`getTransportNameFromId(this.transportId)` inside a template literal; the
identifier is resolved against the module scope, and an unbound
identifier is a thrown `ReferenceError`, reached before the
`getTransport` resolution of line 41. -/
def serverConstructor (config : Config) : Except JsError ServerInit :=
  let transportId := (config.transport).getD consoleTransportId
  if "getTransportNameFromId" ∈ serverModuleScope then
    Except.ok { transportId := transportId, transportResolved := true }
  else
    Except.error (JsError.refError "getTransportNameFromId")

/-! Field-access lemmas. -/

theorem getField?_cons (k2 : String) (v2 : JsVal) (rest : JsObj) (k : String) :
    getField? ((k2, v2) :: rest) k = if k2 == k then some v2 else getField? rest k := by
  cases h : k2 == k <;> simp [getField?, List.find?, h]

theorem getField?_setField_self (o : JsObj) (k : String) (v : JsVal) :
    getField? (setField o k v) k = some v := by
  induction o with
  | nil => simp [setField, getField?, List.find?]
  | cons p rest ih =>
    obtain ⟨k2, v2⟩ := p
    by_cases h : k2 = k
    · subst h
      simp [setField, getField?, List.find?]
    · have hb : (k2 == k) = false := beq_eq_false_iff_ne.mpr h
      simp [setField, hb, getField?_cons, ih]

theorem getField?_setField_ne (o : JsObj) (k k2 : String) (v : JsVal) (h : k2 ≠ k) :
    getField? (setField o k v) k2 = getField? o k2 := by
  have hbk : (k == k2) = false := beq_eq_false_iff_ne.mpr (Ne.symm h)
  induction o with
  | nil => simp [setField, getField?, List.find?, hbk]
  | cons p rest ih =>
    obtain ⟨k3, v3⟩ := p
    by_cases hk : k3 = k
    · subst hk
      simp [setField, getField?_cons, hbk]
    · have hb : (k3 == k) = false := beq_eq_false_iff_ne.mpr hk
      simp [setField, hb, getField?_cons, ih]

theorem getField?_withServerHost_ne (req : Request) (p : JsObj) (k : String)
    (h : k ≠ "host") : getField? (withServerHost req p) k = getField? p k := by
  unfold withServerHost
  exact getField?_setField_ne p "host" k _ h

theorem getField?_withServerHost_host (req : Request) (p : JsObj) :
    getField? (withServerHost req p) "host" = some (JsVal.str (deriveHost req)) := by
  unfold withServerHost
  exact getField?_setField_self p "host" _

theorem getField?_withTimestamp_ne (nowA : String) (p : JsObj) (k : String)
    (h : k ≠ "timestamp") : getField? (withTimestamp nowA p) k = getField? p k := by
  unfold withTimestamp
  split
  · split
    · exact getField?_setField_ne p "timestamp" k _ h
    · exact getField?_setField_ne p "timestamp" k _ h
  · exact getField?_setField_ne p "timestamp" k _ h

theorem getField?_normalized_id (req : Request) (nowA : String) (payload : JsObj) :
    getField? (withTimestamp nowA (withServerHost req payload)) "id" = getField? payload "id" := by
  rw [getField?_withTimestamp_ne _ _ _ (by decide)]
  exact getField?_withServerHost_ne req payload "id" (by decide)

theorem getField?_normalized_host (req : Request) (nowA : String) (payload : JsObj) :
    getField? (withTimestamp nowA (withServerHost req payload)) "host"
      = some (JsVal.str (deriveHost req)) := by
  rw [getField?_withTimestamp_ne _ _ _ (by decide)]
  exact getField?_withServerHost_host req payload

theorem schemeGet_ok (p : JsObj) (v : JsVal) (h : getField? p "id" = some v)
    (hv : v ≠ JsVal.null) : schemeGet p = Except.ok p := by
  unfold schemeGet
  rw [h]
  cases v <;> simp_all

theorem jsStrictEq_str_iff (v : JsVal) (s : String) :
    jsStrictEq v (JsVal.str s) = true ↔ v = JsVal.str s := by
  cases v <;> simp [jsStrictEq]

/-! Lemmas about the `forEach` selection loop and the store write. -/

theorem foldl_select_const (id : String) (logs : List JsObj) (acc : Option JsObj)
    (h : ∀ r ∈ logs, idMatch id r = false) :
    logs.foldl (fun acc r => if idMatch id r then some r else acc) acc = acc := by
  induction logs generalizing acc with
  | nil => rfl
  | cons x xs ih =>
    have hx : idMatch id x = false := h x (List.mem_cons_self x xs)
    simp only [List.foldl_cons, hx, if_false]
    exact ih acc (fun r hr => h r (List.mem_cons_of_mem x hr))

theorem foldl_select_finds (id : String) (logs : List JsObj) (acc : Option JsObj)
    (h : (∃ r ∈ logs, idMatch id r = true) ∨ (∃ a, acc = some a ∧ idMatch id a = true)) :
    ∃ b, logs.foldl (fun acc r => if idMatch id r then some r else acc) acc = some b ∧
      idMatch id b = true := by
  induction logs generalizing acc with
  | nil =>
    rcases h with ⟨r, hr, _⟩ | ⟨a, ha, hm⟩
    · exact absurd hr (List.not_mem_nil r)
    · exact ⟨a, ha, hm⟩
  | cons x xs ih =>
    by_cases hx : idMatch id x = true
    · simp only [List.foldl_cons, hx, if_true]
      exact ih (some x) (Or.inr ⟨x, rfl, hx⟩)
    · have hx' : idMatch id x = false := by
        cases hxx : idMatch id x
        · rfl
        · exact absurd hxx hx
      simp only [List.foldl_cons, hx', if_false]
      apply ih acc
      rcases h with ⟨r, hr, hm⟩ | hacc
      · rcases List.mem_cons.mp hr with hrx | hrs
        · subst hrx
          exact absurd hm hx
        · exact Or.inl ⟨r, hrs, hm⟩
      · exact Or.inr hacc

theorem selectLast_none (logs : List JsObj) (id : String)
    (h : ∀ r ∈ logs, idMatch id r = false) : selectLast logs id = none :=
  foldl_select_const id logs none h

theorem selectLast_finds (logs : List JsObj) (id : String)
    (h : ∃ r ∈ logs, idMatch id r = true) :
    ∃ b, selectLast logs id = some b ∧ idMatch id b = true :=
  foldl_select_finds id logs none (Or.inl h)

theorem keyEq_str (r : JsObj) (k : String) :
    keyEq (getField? r "id") (some (JsVal.str k)) = idMatch k r := by
  cases h : getField? r "id" with
  | none => simp [keyEq, idMatch, h]
  | some v => simp [keyEq, idMatch, h]

theorem idMatch_self (record : JsObj) (k : String)
    (h : getField? record "id" = some (JsVal.str k)) : idMatch k record = true := by
  simp [idMatch, h, jsStrictEq]

theorem saveToLock_mem (logs : List JsObj) (record : JsObj) (k : String)
    (h : getField? record "id" = some (JsVal.str k)) :
    ∃ r ∈ saveToLock logs record, idMatch k r = true := by
  unfold saveToLock
  rw [h]
  by_cases hany : logs.any (fun r => keyEq (getField? r "id") (some (JsVal.str k))) = true
  · rw [if_pos hany]
    rcases List.any_eq_true.mp hany with ⟨x, hx, hq⟩
    refine ⟨record, ?_, idMatch_self record k h⟩
    exact List.mem_map.mpr ⟨x, hx, by simp [hq]⟩
  · rw [if_neg hany]
    exact ⟨record, List.mem_append_right logs (List.mem_singleton.mpr rfl),
      idMatch_self record k h⟩

/-- Number of entries in a listing whose `id` strictly equals the given
string, as `GET /logs.json` exposes them. -/
def countById (logs : List JsObj) (k : String) : Nat :=
  logs.countP (fun r => idMatch k r)

theorem countById_saveToLock (logs : List JsObj) (record : JsObj) (k : String)
    (h : getField? record "id" = some (JsVal.str k)) :
    countById (saveToLock logs record) k =
      if countById logs k = 0 then 1 else countById logs k := by
  unfold saveToLock countById
  rw [h]
  have hpq : ∀ r : JsObj, keyEq (getField? r "id") (some (JsVal.str k)) = idMatch k r :=
    fun r => keyEq_str r k
  by_cases hany : logs.any (fun r => keyEq (getField? r "id") (some (JsVal.str k))) = true
  · rw [if_pos hany]
    rcases List.any_eq_true.mp hany with ⟨x, hx, hq⟩
    have hcount : List.countP (fun r => idMatch k r)
        (logs.map (fun r => if keyEq (getField? r "id") (some (JsVal.str k)) then record else r))
        = List.countP (fun r => idMatch k r) logs := by
      rw [List.countP_map]
      apply List.countP_congr
      intro a _
      by_cases ha : idMatch k a = true
      · simp [Function.comp, hpq a, ha, idMatch_self record k h]
      · have ha' : idMatch k a = false := by
          cases haa : idMatch k a
          · rfl
          · exact absurd haa ha
        simp [Function.comp, hpq a, ha']
    rw [hcount]
    have hpos : List.countP (fun r => idMatch k r) logs ≠ 0 := by
      intro h0
      have := List.countP_eq_zero.mp h0 x hx
      rw [hpq x] at hq
      exact this hq
    rw [if_neg hpos]
  · rw [if_neg hany]
    have hzero : List.countP (fun r => idMatch k r) logs = 0 := by
      apply List.countP_eq_zero.mpr
      intro a ha
      intro hma
      apply hany
      exact List.any_eq_true.mpr ⟨a, ha, by rw [hpq a]; exact hma⟩
    rw [hzero, if_pos rfl]
    rw [List.countP_append, hzero]
    simp [List.countP, List.countP.go, idMatch_self record k h]

theorem schemeGet_fail (p : JsObj)
    (h : getField? p "id" = none ∨ getField? p "id" = some JsVal.null) :
    schemeGet p = Except.error (JsError.validation "Invalid payload: id must be non-null") := by
  unfold schemeGet
  rcases h with h | h <;> rw [h]

theorem serverTrace_ok (req : Request) (nowA : String) (payload : JsObj) (v : JsVal)
    (h : getField? payload "id" = some v) (hv : v ≠ JsVal.null) :
    serverTrace req nowA payload =
      (withTimestamp nowA (withServerHost req payload),
       [withTimestamp nowA (withServerHost req payload)]) := by
  unfold serverTrace
  rw [schemeGet_ok _ v (by rw [getField?_normalized_id]; exact h) hv]

theorem idMatch_getField (r : JsObj) (k : String) (h : idMatch k r = true) :
    getField? r "id" = some (JsVal.str k) := by
  unfold idMatch at h
  cases h2 : getField? r "id" with
  | none => rw [h2] at h; exact Bool.noConfusion h
  | some v => rw [h2] at h; exact congrArg some ((jsStrictEq_str_iff v k).mp h)

theorem logByIdRoute_content (logs : List JsObj) (id : String) :
    logByIdRoute (StoreFile.content logs) id =
      match selectLast logs id with
      | none => RouteResult.err (JsError.notFound ("Logfile with ID " ++ id ++ " was not found"))
      | some r => RouteResult.ok (jsonResponse (JsVal.obj r)) := rfl

/-! Claim theorems. -/

/-- Claim C10: constructing a `Server` with any configuration — the
default included — throws a `ReferenceError`: line 39 evaluates the
identifier `getTransportNameFromId`, which is neither defined in the
module nor imported, and this happens before the transport resolution of
line 41, so startup never completes successfully. -/
theorem server_constructor_always_reference_error (config : Config) :
    serverConstructor config = Except.error (JsError.refError "getTransportNameFromId") := by
  unfold serverConstructor
  rw [if_neg (by decide)]

/-- Claim C1 (code bug): a `POST /trace` whose payload fails schema
validation is answered with status 200, body
`{timestamp, error: null, id: null, httpStatus: 200}` — the structured
failure `{id: null, error}` produced by the catch block of `Server.trace`
is handed to the route's success continuation, which hardcodes
`error: null` and 200 — not with the claimed `httpStatus: 500` and
non-null `error`; nothing reaches the shared error handler and the store
is untouched. -/
theorem post_trace_validation_failure_answers_200 (req : Request) (nowA nowB : String)
    (store : StoreFile)
    (h : getField? req.body "id" = none ∨ getField? req.body "id" = some JsVal.null) :
    postTraceRoute req nowA nowB store =
      (RouteResult.ok
        { status := 200,
          headersSet := [("Content-Type", "application/json")],
          body := JsVal.obj [("timestamp", JsVal.str nowB), ("error", JsVal.null),
                             ("id", JsVal.null), ("httpStatus", JsVal.num 200)] },
        store) := by
  have hid : getField? (withTimestamp nowA (withServerHost req req.body)) "id"
      = getField? req.body "id" := getField?_normalized_id req nowA req.body
  have hs : schemeGet (withTimestamp nowA (withServerHost req req.body))
      = Except.error (JsError.validation "Invalid payload: id must be non-null") :=
    schemeGet_fail _ (by rw [hid]; exact h)
  unfold postTraceRoute postTraceRouteWith serverTrace
  rw [hs]
  rfl

/-- Claim C1 witness: the empty payload (no `id`) exercises the failing
branch. -/
theorem post_trace_validation_failure_answers_200_witness :
    postTraceRoute
        { ip := "9.9.9.9", origin := none, xForwardedFor := none,
          remoteAddress := "9.9.9.9", body := [], query := [] } "T1" "T2"
        (StoreFile.unreadable "ENOENT") =
      (RouteResult.ok
        { status := 200,
          headersSet := [("Content-Type", "application/json")],
          body := JsVal.obj [("timestamp", JsVal.str "T2"), ("error", JsVal.null),
                             ("id", JsVal.null), ("httpStatus", JsVal.num 200)] },
        StoreFile.unreadable "ENOENT") :=
  post_trace_validation_failure_answers_200
    { ip := "9.9.9.9", origin := none, xForwardedFor := none,
      remoteAddress := "9.9.9.9", body := [], query := [] } "T1" "T2"
    (StoreFile.unreadable "ENOENT") (Or.inl rfl)

/-- Claim C2 counterexample: with the x-forwarded-for header present but
holding the empty string — present, yet falsy, so the `||` of line 51
falls through — the normalized record's host is the raw connection
address, not the present header's value; the claim's "the value of the
x-forwarded-for request header when present" fails on this input. -/
theorem host_empty_forwarded_header_counterexample :
    getField? (serverTrace
        { ip := "9.9.9.9", origin := none, xForwardedFor := some "",
          remoteAddress := "10.0.0.1", body := [], query := [] } "T"
        [("id", JsVal.str "a"), ("host", JsVal.str "203.0.113.7")]).1 "host"
      = some (JsVal.str "10.0.0.1") ∧
    JsVal.str "10.0.0.1" ≠ JsVal.str "" := by
  constructor
  · rfl
  · intro hcontra
    injection hcontra with h2
    exact absurd h2 (by decide)

/-- Spec-side definition for the amended claim C2: the server-observed
origin is the x-forwarded-for header value when that header is present
and non-empty, otherwise the raw connection address. -/
def originSpec (xff : Option String) (remote : String) : String :=
  match xff with
  | some s => if s = "" then remote else s
  | none => remote

/-- Claim C2 (amended): for every payload that normalizes successfully —
including one that supplies its own `host` field — the normalized
record's host equals the server-derived origin: the x-forwarded-for
header value when present and NON-EMPTY, otherwise the raw connection
address; and the client-supplied host is never kept — overwriting the
payload's `host` with any value leaves the normalized host unchanged. -/
theorem normalized_host_is_server_origin (req : Request) (nowA : String) (payload : JsObj)
    (v : JsVal) (h : getField? payload "id" = some v) (hv : v ≠ JsVal.null) :
    getField? (serverTrace req nowA payload).1 "host"
      = some (JsVal.str (originSpec req.xForwardedFor req.remoteAddress)) ∧
    ∀ w : JsVal, getField? (serverTrace req nowA (setField payload "host" w)).1 "host"
      = some (JsVal.str (originSpec req.xForwardedFor req.remoteAddress)) := by
  have hd : deriveHost req = originSpec req.xForwardedFor req.remoteAddress := by
    unfold deriveHost originSpec
    cases req.xForwardedFor with
    | none => rfl
    | some s =>
      by_cases hs : s = ""
      · simp [jsTruthy, hs]
      · simp [jsTruthy, hs]
  have key : ∀ q : JsObj, getField? q "id" = some v →
      getField? (serverTrace req nowA q).1 "host" = some (JsVal.str (deriveHost req)) := by
    intro q hq
    unfold serverTrace
    rw [schemeGet_ok _ v (by rw [getField?_normalized_id]; exact hq) hv]
    exact getField?_normalized_host req nowA q
  rw [hd] at key
  refine ⟨key payload h, fun w => key (setField payload "host" w) ?_⟩
  rw [getField?_setField_ne _ _ _ _ (by decide)]
  exact h

/-- Claim C2 amended witness at a concrete request and payload carrying a
client-chosen host. -/
theorem normalized_host_is_server_origin_witness :
    getField? (serverTrace
        { ip := "1.1.1.1", origin := none, xForwardedFor := none,
          remoteAddress := "198.51.100.7", body := [], query := [] } "T"
        [("id", JsVal.str "a"), ("host", JsVal.str "evil")]).1 "host"
      = some (JsVal.str (originSpec none "198.51.100.7")) ∧
    ∀ w : JsVal, getField? (serverTrace
        { ip := "1.1.1.1", origin := none, xForwardedFor := none,
          remoteAddress := "198.51.100.7", body := [], query := [] } "T"
        (setField [("id", JsVal.str "a"), ("host", JsVal.str "evil")] "host" w)).1 "host"
      = some (JsVal.str (originSpec none "198.51.100.7")) :=
  normalized_host_is_server_origin
    { ip := "1.1.1.1", origin := none, xForwardedFor := none,
      remoteAddress := "198.51.100.7", body := [], query := [] } "T"
    [("id", JsVal.str "a"), ("host", JsVal.str "evil")] (JsVal.str "a") rfl
    (fun hh => JsVal.noConfusion hh)

/-- Claim C3 counterexample: with the backing file absent — the very
"before any trace has ever been written" state, surfacing as an
`fs.readFile` error — `GET /logs.json` forwards the error to the shared
error handler and answers the 500 envelope, not an empty JSON array. -/
theorem logs_json_absent_store_counterexample :
    logsJsonRoute (StoreFile.unreadable "ENOENT: no such file or directory")
      = RouteResult.err (JsError.fsRead "ENOENT: no such file or directory") ∧
    (runRoute "T" (logsJsonRoute
        (StoreFile.unreadable "ENOENT: no such file or directory"))).status = 500 ∧
    (runRoute "T" (logsJsonRoute
        (StoreFile.unreadable "ENOENT: no such file or directory"))).body ≠ logsArr [] := by
  refine ⟨rfl, rfl, fun hcontra => JsVal.noConfusion hcontra⟩

/-- Claim C3 (amended): when the backing file is absent or unreadable —
in particular before any trace has ever been written — `GET /logs.json`
responds through the shared error handler with the 500 envelope carrying
the read error's message; it is the `GET /` index route that degrades to
an empty listing instead of failing. -/
theorem logs_json_unreadable_500_index_empty (m now : String) :
    runRoute now (logsJsonRoute (StoreFile.unreadable m)) = errorEnvelope now m ∧
    indexRoute (StoreFile.unreadable m) = RouteResult.ok (htmlResponse (logsArr [])) :=
  ⟨rfl, rfl⟩

/-- Claim C9: the ingestion acknowledgment is decoupled from
persistence — for every successfully normalized payload, `POST /trace`
answers the same success envelope (status 200, `error: null`, the
payload's id) whatever the fate of the transport's persist-to-store step:
landed, failed, or still in flight.  The continuation is invoked right
after `transport.trace` is handed the record, without waiting on the
store write. -/
theorem trace_ack_independent_of_persist (req : Request) (nowA nowB : String)
    (store : StoreFile) (v : JsVal)
    (h : getField? req.body "id" = some v) (hv : v ≠ JsVal.null) :
    ∀ o : PersistOutcome,
      (postTraceRouteWith o req nowA nowB store).1 =
        RouteResult.ok
          { status := 200,
            headersSet := [("Content-Type", "application/json")],
            body := JsVal.obj [("timestamp", JsVal.str nowB), ("error", JsVal.null),
                               ("id", v), ("httpStatus", JsVal.num 200)] } := by
  intro o
  unfold postTraceRouteWith
  rw [serverTrace_ok req nowA req.body v h hv]
  show RouteResult.ok (traceAck nowB (withTimestamp nowA (withServerHost req req.body))) = _
  unfold traceAck
  rw [getField?_normalized_id req nowA req.body, h]
  rfl

/-- Claim C9 witness: a concrete normalized payload is acknowledged with
the success envelope even when the persist step has failed. -/
theorem trace_ack_independent_of_persist_witness :
    (postTraceRouteWith PersistOutcome.failed
        { ip := "9.9.9.9", origin := none, xForwardedFor := none,
          remoteAddress := "9.9.9.9", body := [("id", JsVal.str "w1")], query := [] }
        "T1" "T2" (StoreFile.unreadable "ENOENT")).1 =
      RouteResult.ok
        { status := 200,
          headersSet := [("Content-Type", "application/json")],
          body := JsVal.obj [("timestamp", JsVal.str "T2"), ("error", JsVal.null),
                             ("id", JsVal.str "w1"), ("httpStatus", JsVal.num 200)] } :=
  trace_ack_independent_of_persist
    { ip := "9.9.9.9", origin := none, xForwardedFor := none,
      remoteAddress := "9.9.9.9", body := [("id", JsVal.str "w1")], query := [] }
    "T1" "T2" (StoreFile.unreadable "ENOENT") (JsVal.str "w1") rfl
    (fun hh => JsVal.noConfusion hh) PersistOutcome.failed

/-- Claim C8 (code bug): for every request — whatever the query string —
the `GET /tracer.jpg` handler of line 182 applies
`decodeURIComponent`/`JSON.parse` to the string coercion of the parsed
Express query object, which is the fixed text `[object Object]`;
`JSON.parse` throws on it, so every tracer request takes the shared
error path (the 500 JSON envelope) and the pixel-image success response
is unreachable; the store is never written. -/
theorem tracer_jpg_always_error_path (req : Request) (nowA now : String) (store : StoreFile) :
    tracerRoute req nowA store = (RouteResult.err (JsError.badJson "[object Object]"), store) ∧
    (runRoute now (tracerRoute req nowA store).1).status = 500 ∧
    (runRoute now (tracerRoute req nowA store).1).headersSet
      = [("Content-Type", "application/json")] := by
  refine ⟨rfl, rfl, rfl⟩

/-- Claim C4: round-trip — after a successful `POST /trace` whose payload
carries `id = "abc123"`, a `GET /logs/abc123.json` against the resulting
store finds a record and that record's `id` equals `"abc123"`. -/
theorem post_then_get_roundtrip (req : Request) (nowA nowB : String) (store : StoreFile)
    (h : getField? req.body "id" = some (JsVal.str "abc123")) :
    ∃ r : JsObj,
      logByIdRoute (postTraceRoute req nowA nowB store).2 "abc123"
        = RouteResult.ok (jsonResponse (JsVal.obj r)) ∧
      getField? r "id" = some (JsVal.str "abc123") := by
  have hnorm : getField? (withTimestamp nowA (withServerHost req req.body)) "id"
      = some (JsVal.str "abc123") := by
    rw [getField?_normalized_id]; exact h
  have hstore : (postTraceRoute req nowA nowB store).2
      = StoreFile.content (saveToLock (listOf store)
          (withTimestamp nowA (withServerHost req req.body))) := by
    unfold postTraceRoute postTraceRouteWith
    rw [serverTrace_ok req nowA req.body _ h (fun hh => JsVal.noConfusion hh)]
    rfl
  rw [hstore]
  rcases selectLast_finds
      (saveToLock (listOf store) (withTimestamp nowA (withServerHost req req.body)))
      "abc123" (saveToLock_mem _ _ _ hnorm) with ⟨b, hb, hbm⟩
  refine ⟨b, ?_, idMatch_getField b "abc123" hbm⟩
  rw [logByIdRoute_content, hb]

/-- Claim C4 witness: posting `{id: "abc123"}` into an empty (absent)
store, then reading `/logs/abc123.json`. -/
theorem post_then_get_roundtrip_witness :
    ∃ r : JsObj,
      logByIdRoute (postTraceRoute
          { ip := "9.9.9.9", origin := none, xForwardedFor := none,
            remoteAddress := "9.9.9.9", body := [("id", JsVal.str "abc123")], query := [] }
          "T1" "T2" (StoreFile.unreadable "ENOENT")).2 "abc123"
        = RouteResult.ok (jsonResponse (JsVal.obj r)) ∧
      getField? r "id" = some (JsVal.str "abc123") :=
  post_then_get_roundtrip
    { ip := "9.9.9.9", origin := none, xForwardedFor := none,
      remoteAddress := "9.9.9.9", body := [("id", JsVal.str "abc123")], query := [] }
    "T1" "T2" (StoreFile.unreadable "ENOENT") rfl

/-- Claim C5: overwrite semantics — two sequential `POST /trace` calls
whose payloads carry the same string id leave, in the listing served by
`GET /logs.json`, exactly one entry for that id, provided the store
started with at most one such entry (keys unique). -/
theorem duplicate_id_leaves_single_entry (req1 req2 : Request) (n1 n2 n3 n4 : String)
    (store : StoreFile) (k : String)
    (h1 : getField? req1.body "id" = some (JsVal.str k))
    (h2 : getField? req2.body "id" = some (JsVal.str k))
    (hs : countById (listOf store) k ≤ 1) :
    ∃ logs : List JsObj,
      logsJsonRoute (postTraceRoute req2 n3 n4 (postTraceRoute req1 n1 n2 store).2).2
        = RouteResult.ok (jsonResponse (logsArr logs)) ∧
      countById logs k = 1 := by
  have hn1 : getField? (withTimestamp n1 (withServerHost req1 req1.body)) "id"
      = some (JsVal.str k) := by rw [getField?_normalized_id]; exact h1
  have hn2 : getField? (withTimestamp n3 (withServerHost req2 req2.body)) "id"
      = some (JsVal.str k) := by rw [getField?_normalized_id]; exact h2
  have hstore1 : (postTraceRoute req1 n1 n2 store).2
      = StoreFile.content (saveToLock (listOf store)
          (withTimestamp n1 (withServerHost req1 req1.body))) := by
    unfold postTraceRoute postTraceRouteWith
    rw [serverTrace_ok req1 n1 req1.body _ h1 (fun hh => JsVal.noConfusion hh)]
    rfl
  have hc1 : countById (saveToLock (listOf store)
      (withTimestamp n1 (withServerHost req1 req1.body))) k = 1 := by
    rw [countById_saveToLock _ _ _ hn1]
    rcases Nat.le_one_iff_eq_zero_or_eq_one.mp hs with h0 | h0 <;> rw [h0] <;> simp
  rw [hstore1]
  have hstore2 : (postTraceRoute req2 n3 n4 (StoreFile.content (saveToLock (listOf store)
      (withTimestamp n1 (withServerHost req1 req1.body))))).2
      = StoreFile.content (saveToLock (saveToLock (listOf store)
          (withTimestamp n1 (withServerHost req1 req1.body)))
          (withTimestamp n3 (withServerHost req2 req2.body))) := by
    unfold postTraceRoute postTraceRouteWith
    rw [serverTrace_ok req2 n3 req2.body _ h2 (fun hh => JsVal.noConfusion hh)]
    rfl
  rw [hstore2]
  refine ⟨_, rfl, ?_⟩
  rw [countById_saveToLock _ _ _ hn2, hc1]
  simp

/-- Claim C5 witness: two posts of `{id: "dup"}` into an absent store
leave exactly one `"dup"` entry in the listing. -/
theorem duplicate_id_leaves_single_entry_witness :
    ∃ logs : List JsObj,
      logsJsonRoute (postTraceRoute
          { ip := "9.9.9.9", origin := none, xForwardedFor := none,
            remoteAddress := "9.9.9.9", body := [("id", JsVal.str "dup")], query := [] }
          "T3" "T4"
          (postTraceRoute
            { ip := "9.9.9.9", origin := none, xForwardedFor := none,
              remoteAddress := "9.9.9.9", body := [("id", JsVal.str "dup")], query := [] }
            "T1" "T2" (StoreFile.unreadable "ENOENT")).2).2
        = RouteResult.ok (jsonResponse (logsArr logs)) ∧
      countById logs "dup" = 1 :=
  duplicate_id_leaves_single_entry
    { ip := "9.9.9.9", origin := none, xForwardedFor := none,
      remoteAddress := "9.9.9.9", body := [("id", JsVal.str "dup")], query := [] }
    { ip := "9.9.9.9", origin := none, xForwardedFor := none,
      remoteAddress := "9.9.9.9", body := [("id", JsVal.str "dup")], query := [] }
    "T1" "T2" "T3" "T4" (StoreFile.unreadable "ENOENT") "dup" rfl rfl (by decide)

/-- Claim C6: for an id absent from a readable store, `GET /logs/:id.json`
forwards a not-found error whose message embeds that id, so the response
is the 500 envelope and never a 200; and the not-found condition is a
distinct error value from the store-unavailable (`fs.readFile` failure)
condition, which carries the file-system error instead. -/
theorem absent_id_error_references_id (logs : List JsObj) (id : String) (now m : String)
    (h : ∀ r ∈ logs, idMatch id r = false) :
    logByIdRoute (StoreFile.content logs) id
      = RouteResult.err (JsError.notFound ("Logfile with ID " ++ id ++ " was not found")) ∧
    (runRoute now (logByIdRoute (StoreFile.content logs) id)).status = 500 ∧
    (runRoute now (logByIdRoute (StoreFile.content logs) id)).status ≠ 200 ∧
    (∃ pre post : String,
        errMessage (JsError.notFound ("Logfile with ID " ++ id ++ " was not found"))
          = pre ++ id ++ post) ∧
    logByIdRoute (StoreFile.unreadable m) id = RouteResult.err (JsError.fsRead m) ∧
    JsError.notFound ("Logfile with ID " ++ id ++ " was not found") ≠ JsError.fsRead m := by
  have hsel : selectLast logs id = none := selectLast_none logs id h
  have hroute : logByIdRoute (StoreFile.content logs) id
      = RouteResult.err (JsError.notFound ("Logfile with ID " ++ id ++ " was not found")) := by
    rw [logByIdRoute_content, hsel]
  refine ⟨hroute, by rw [hroute]; rfl,
    by rw [hroute]; exact (by decide : (500 : Nat) ≠ 200),
    ⟨"Logfile with ID ", " was not found", rfl⟩, rfl,
    fun hcontra => JsError.noConfusion hcontra⟩

/-- Claim C6 witness: the empty listing and the id `"doesnotexist"`. -/
theorem absent_id_error_references_id_witness :
    logByIdRoute (StoreFile.content []) "doesnotexist"
      = RouteResult.err (JsError.notFound "Logfile with ID doesnotexist was not found") ∧
    (runRoute "T" (logByIdRoute (StoreFile.content []) "doesnotexist")).status = 500 ∧
    (runRoute "T" (logByIdRoute (StoreFile.content []) "doesnotexist")).status ≠ 200 ∧
    (∃ pre post : String,
        errMessage (JsError.notFound "Logfile with ID doesnotexist was not found")
          = pre ++ "doesnotexist" ++ post) ∧
    logByIdRoute (StoreFile.unreadable "EACCES") "doesnotexist"
      = RouteResult.err (JsError.fsRead "EACCES") ∧
    JsError.notFound "Logfile with ID doesnotexist was not found"
      ≠ JsError.fsRead "EACCES" :=
  absent_id_error_references_id [] "doesnotexist" "T" "EACCES"
    (fun r hr => absurd hr (List.not_mem_nil r))

/-- Claim C7 counterexample: under a CORS whitelist configuration, a
request whose origin the whitelist rejects is answered by the shared
error handler without ever reaching the header middleware of lines
122-127, so its response carries neither `X-RemLog-Client` nor
`X-RemLog-Server-Version` — the claim's "every HTTP response produced by
the server" fails on this response. -/
theorem cors_rejected_response_lacks_remlog_headers :
    (handleRequest
        { port := 8189, transport := some "console", cors := ["http://allowed.example"] }
        "remlog-server" "1.0.0" Route.info
        { ip := "9.9.9.9", origin := some "http://other.example", xForwardedFor := none,
          remoteAddress := "9.9.9.9", body := [], query := [] } "T1" "T2"
        (StoreFile.content [])).1.headersSet
      = [("Content-Type", "application/json")] ∧
    "X-RemLog-Client" ∉ ((handleRequest
        { port := 8189, transport := some "console", cors := ["http://allowed.example"] }
        "remlog-server" "1.0.0" Route.info
        { ip := "9.9.9.9", origin := some "http://other.example", xForwardedFor := none,
          remoteAddress := "9.9.9.9", body := [], query := [] } "T1" "T2"
        (StoreFile.content [])).1.headersSet.map Prod.fst) ∧
    "X-RemLog-Server-Version" ∉ ((handleRequest
        { port := 8189, transport := some "console", cors := ["http://allowed.example"] }
        "remlog-server" "1.0.0" Route.info
        { ip := "9.9.9.9", origin := some "http://other.example", xForwardedFor := none,
          remoteAddress := "9.9.9.9", body := [], query := [] } "T1" "T2"
        (StoreFile.content [])).1.headersSet.map Prod.fst) := by
  refine ⟨rfl, ?_, ?_⟩ <;> decide

/-- Claim C7 (amended): every response to a request that passes the CORS
middleware — in particular, every request under the default wide-open
CORS configuration — carries both the caller-IP header
`X-RemLog-Client` and the server-version header
`X-RemLog-Server-Version`, regardless of route and regardless of whether
the handler succeeds or the shared error handler answers; a request
rejected by the CORS origin whitelist, however, is answered without
them, because the rejection is raised before the header middleware
runs. -/
theorem responses_carry_remlog_headers (cfg : Config) (nm ver : String) (route : Route)
    (req : Request) (nowA nowB : String) (store : StoreFile)
    (h : corsCheck cfg req.origin = Except.ok ()) :
    ("X-RemLog-Client", req.ip)
        ∈ (handleRequest cfg nm ver route req nowA nowB store).1.headersSet ∧
    ("X-RemLog-Server-Version", ver)
        ∈ (handleRequest cfg nm ver route req nowA nowB store).1.headersSet := by
  unfold handleRequest
  rw [h]
  constructor
  · exact List.mem_append_left _ (List.mem_cons_self _ _)
  · exact List.mem_append_left _ (List.mem_cons_of_mem _ (List.mem_cons_self _ _))

/-- Claim C7 amended witness: the default configuration passes the CORS
check, and an error-handled route (a `GET /logs.json` on an absent
store) still carries both headers. -/
theorem responses_carry_remlog_headers_witness :
    ("X-RemLog-Client", "203.0.113.9")
        ∈ (handleRequest defaultConfig "remlog-server" "1.0.0" Route.logsJson
            { ip := "203.0.113.9", origin := none, xForwardedFor := none,
              remoteAddress := "203.0.113.9", body := [], query := [] } "T1" "T2"
            (StoreFile.unreadable "ENOENT")).1.headersSet ∧
    ("X-RemLog-Server-Version", "1.0.0")
        ∈ (handleRequest defaultConfig "remlog-server" "1.0.0" Route.logsJson
            { ip := "203.0.113.9", origin := none, xForwardedFor := none,
              remoteAddress := "203.0.113.9", body := [], query := [] } "T1" "T2"
            (StoreFile.unreadable "ENOENT")).1.headersSet :=
  responses_carry_remlog_headers defaultConfig "remlog-server" "1.0.0" Route.logsJson
    { ip := "203.0.113.9", origin := none, xForwardedFor := none,
      remoteAddress := "203.0.113.9", body := [], query := [] } "T1" "T2"
    (StoreFile.unreadable "ENOENT") rfl
